import Mathlib

set_option autoImplicit false

/-
Shallow embedding of the MCP tool-registration framework:
  - src/mcp/fastmcp.py        (class FastMCP: tool decorator, list_tools,
                               get_tool_info, execute_tool, generate_openapi_schema)
  - src/mcp/fastapi_integration.py (register_mcp_tools, create_endpoint,
                               list/info GET endpoints)

Python dictionaries are modelled as association lists with Python dict
assignment semantics: assigning to an existing key replaces the value in
place, keeping the original insertion position; assigning a fresh key
appends.  Python callables are modelled as Lean functions returning
`Except PyErr Value` (an `Except.error` models a raised exception).
-/

namespace MCP

/-- Python runtime values, as far as the framework inspects them.  The
constructor `pyNone` models the Python `None` object; floats are not needed
by any registered default in this framework and are omitted. -/
inductive Value where
  | pyNone
  | str (s : String)
  | int (n : Int)
  | bool (b : Bool)
  | list (elems : List Value)
  | dict (entries : List (String × Value))

/-- Models the Python identity test `v is None`. -/
def Value.isNone : Value → Bool
  | .pyNone => true
  | _ => false

/-- A raised Python exception: its class name and its message (`str(e)`). -/
structure PyErr where
  kind : String
  msg : String
deriving DecidableEq, Repr

/-- Semantic type tags for parameter and return annotations, as far as the
framework discriminates them (`int`, `float`, `bool`, `list`/`List`,
`dict`/`Dict` are mapped specially by `generate_openapi_schema`; everything
else, including `str` and `Any`, falls through to the default branch). -/
inductive PType where
  | str
  | int
  | float
  | bool
  | list
  | dict
  | any
deriving DecidableEq, Repr

/-- An injective rendering standing for the Python `str()` of a type object
(the exact text is never branched on by the framework). -/
def PType.pyStr : PType → String
  | .str => "class str"
  | .int => "class int"
  | .float => "class float"
  | .bool => "class bool"
  | .list => "class list"
  | .dict => "class dict"
  | .any => "typing.Any"

/-- The default slot of one parameter in `inspect.signature(func)`:
either `inspect.Parameter.empty` or a concrete Python value (which may
itself be the Python `None`). -/
inductive PyDefault where
  | empty
  | value (v : Value)

/-- One parameter of a Python callable as reported by `inspect.signature`
together with `get_type_hints`: `hint = none` models an unannotated
parameter (then `type_hints.get(param_name, Any)` yields `Any`). -/
structure PyParam where
  name : String
  hint : Option PType
  default : PyDefault

/-- The call arguments of a Python invocation: positional arguments and
keyword arguments. -/
def CallArgs : Type := List Value × List (String × Value)

/-- A Python callable with the introspectable data the framework reads:
its `__name__`, its `inspect.getdoc` result, its signature parameters in
order, its return annotation, and its behaviour. -/
structure PyFunc where
  pyName : String
  docstring : Option String
  params : List PyParam
  returnHint : Option PType
  call : CallArgs → Except PyErr Value

/-- Python string truthiness fallback `a or b` where `a` is an
`Optional[str]`: `None` and the empty string are falsy. -/
def pyOrStr (a : Option String) (b : String) : String :=
  match a with
  | some s => if s = "" then b else s
  | none => b

/-- Python dict assignment `d[k] = v`: replace in place when the key
exists (keeping its position), append otherwise. -/
def dictInsert {α : Type} (k : String) (v : α) : List (String × α) → List (String × α)
  | [] => [(k, v)]
  | (k1, v1) :: rest => if k1 = k then (k, v) :: rest else (k1, v1) :: dictInsert k v rest

/-- Python dict lookup `d.get(k)` / `d[k]` combined with `k in d`. -/
def dictGet {α : Type} (k : String) : List (String × α) → Option α
  | [] => none
  | (k1, v1) :: rest => if k1 = k then some v1 else dictGet k rest

/-- The per-parameter record stored in `ToolMetadata.parameters`
(fastmcp.py lines 64-69). -/
structure ParamSpec where
  type : PType
  required : Bool
  default : Value
  description : String

/-- Builds the stored record for one signature parameter
(fastmcp.py lines 54-69): `required` is true iff the default slot is
`inspect.Parameter.empty`; the stored `default` is the supplied default or
the Python `None` when the slot is empty; the type is the hint or `Any`. -/
def mkParamSpec (p : PyParam) : ParamSpec :=
  { type := p.hint.getD PType.any
    required := match p.default with | .empty => true | .value _ => false
    default := match p.default with | .empty => Value.pyNone | .value v => v
    description := "" }

/-- The `parameters = {}` loop of the decorator (fastmcp.py lines 52-69):
a dict keyed by parameter name, filled in signature order. -/
def extractParams (ps : List PyParam) : List (String × ParamSpec) :=
  ps.foldl (fun acc p => dictInsert p.name (mkParamSpec p) acc) []

/-- Metadata for an MCP tool (class `ToolMetadata` in fastmcp.py). -/
structure ToolMetadata where
  name : String
  description : String
  function : CallArgs → Except PyErr Value
  parameters : List (String × ParamSpec)
  return_type : PType

/-- The registry state `self.tools : Dict[str, ToolMetadata]`. -/
abbrev Registry : Type := List (String × ToolMetadata)

/-- Builds the `ToolMetadata` registered by the decorator
(fastmcp.py lines 44-81): `func_name = name or func.__name__`,
`func_desc = description or inspect.getdoc(func) or ""`. -/
def mkToolMetadata (name? : Option String) (description? : Option String)
    (f : PyFunc) : ToolMetadata :=
  { name := pyOrStr name? f.pyName
    description := pyOrStr description? (pyOrStr f.docstring "")
    function := f.call
    parameters := extractParams f.params
    return_type := f.returnHint.getD PType.any }

namespace FastMCP

/-- The wrapper returned by the decorator (fastmcp.py lines 85-95): call
the wrapped function; on success return its result; on exception log and
re-raise the same exception. -/
def wrapper (call : CallArgs → Except PyErr Value) (args : CallArgs) :
    Except PyErr Value :=
  match call args with
  | .ok result => .ok result
  | .error e => .error e

/-- The `tool` decorator (fastmcp.py lines 35-97) applied to a function:
registers the metadata under the resolved name (dict assignment, so a
second registration under the same name overwrites) and returns the
wrapper.  The registry is threaded explicitly in place of `self.tools`. -/
def tool (tools : Registry) (name? description? : Option String) (f : PyFunc) :
    Registry × (CallArgs → Except PyErr Value) :=
  let tm := mkToolMetadata name? description? f
  (dictInsert tm.name tm tools, wrapper f.call)

/-- `list_tools` (fastmcp.py lines 99-101): `list(self.tools.keys())`. -/
def list_tools (tools : Registry) : List String :=
  tools.map Prod.fst

/-- The rendered per-parameter entry of `get_tool_info`
(fastmcp.py lines 112-120): the type is stringified. -/
structure ParamInfoView where
  type : String
  required : Bool
  default : Value
  description : String

/-- The render-friendly projection returned by `get_tool_info`
(fastmcp.py lines 108-122). -/
structure ToolInfo where
  name : String
  description : String
  parameters : List (String × ParamInfoView)
  return_type : String

/-- `get_tool_info` (fastmcp.py lines 103-122): `None` when the name is
not a key of `self.tools`, otherwise the projection. -/
def get_tool_info (tools : Registry) (tool_name : String) : Option ToolInfo :=
  match dictGet tool_name tools with
  | none => none
  | some tm =>
      some
        { name := tm.name
          description := tm.description
          parameters := tm.parameters.map fun np =>
            (np.1,
              { type := np.2.type.pyStr
                required := np.2.required
                default := np.2.default
                description := np.2.description })
          return_type := tm.return_type.pyStr }

/-- `execute_tool` (fastmcp.py lines 124-130): raises
`ValueError(f"Tool not found: \x7btool_name\x7d")` on a missing name,
otherwise calls `tool.function(**kwargs)` and returns its result. -/
def execute_tool (tools : Registry) (tool_name : String)
    (kwargs : List (String × Value)) : Except PyErr Value :=
  match dictGet tool_name tools with
  | none => Except.error { kind := "ValueError", msg := "Tool not found: " ++ tool_name }
  | some tm => tm.function ([], kwargs)

/-- The per-parameter property emitted into the request-body schema of
`generate_openapi_schema` (fastmcp.py lines 156-177): a JSON-schema type
string, the stored description, and a `default` entry present exactly when
the stored default is not the Python `None`. -/
structure PropSchema where
  type : String
  description : String
  default : Option Value

/-- The type mapping of `generate_openapi_schema` (fastmcp.py lines
157-168): `int`, `float`, `bool`, `list`/`List`, `dict`/`Dict` are mapped;
everything else keeps the default `"string"`. -/
def typeToSchemaStr : PType → String
  | .int => "integer"
  | .float => "number"
  | .bool => "boolean"
  | .list => "array"
  | .dict => "object"
  | _ => "string"

/-- One property as assigned at fastmcp.py lines 170-177. -/
def mkPropSchema (ps : ParamSpec) : PropSchema :=
  { type := typeToSchemaStr ps.type
    description := ps.description
    default := if ps.default.isNone then none else some ps.default }

/-- The `request_body` record built per tool (fastmcp.py lines 139-177),
flattened: `properties` and `requiredList` are the nested
`schema.properties` and `schema.required` entries, and `bodyRequired` is
the outer body-level required flag. -/
structure BodyState where
  properties : List (String × PropSchema)
  requiredList : List String
  bodyRequired : Bool

/-- The parameter loop of `generate_openapi_schema` (fastmcp.py lines
148-177): per parameter, first append the name to `required` and set the
body-required flag when the parameter is required, then assign its
property (dict assignment), then continue with the rest. -/
def buildRequestBody : List (String × ParamSpec) → BodyState → BodyState
  | [], st => st
  | (pn, ps) :: rest, st =>
      let st1 :=
        if ps.required then
          { st with requiredList := st.requiredList ++ [pn], bodyRequired := true }
        else st
      buildRequestBody rest
        { st1 with properties := dictInsert pn (mkPropSchema ps) st1.properties }

/-- The POST operation of one tool path (fastmcp.py lines 180-204):
`operationId` is the tool name, the summary is the first line of the
description (empty when the description is empty), the request body is
built from the parameters. -/
structure PostOperation where
  operationId : String
  summary : String
  description : String
  requestBody : BodyState

/-- Builds the path item for one tool (fastmcp.py lines 180-204). -/
def mkPathItem (tool_name : String) (tm : ToolMetadata) : PostOperation :=
  { operationId := tool_name
    summary :=
      if tm.description = "" then "" else (tm.description.splitOn ("\n")).headD ""
    description := tm.description
    requestBody :=
      buildRequestBody tm.parameters
        { properties := [], requiredList := [], bodyRequired := false } }

/-- `generate_openapi_schema` (fastmcp.py lines 132-219), restricted to
its `paths` member (the surrounding `info` envelope is constant): one POST
path per registry entry, keyed `"/tools/" + tool_name` (dict assignment
while iterating the registry). -/
def generate_openapi_schema (tools : Registry) : List (String × PostOperation) :=
  tools.foldl
    (fun paths nt => dictInsert ("/tools/" ++ nt.1) (mkPathItem nt.1 nt.2) paths) []

end FastMCP

/-- One field definition passed to `create_model`
(fastapi_integration.py lines 22-27): the parameter type and either a
default value or, for required parameters, the Ellipsis marker (modelled
as `none`), which makes the generated field mandatory. -/
structure FieldDef where
  type : PType
  default : Option Value

/-- The default slot of one generated field
(fastapi_integration.py line 25): Ellipsis (`none`) iff the recorded
parameter is required, otherwise the recorded default. -/
def fieldDefault (ps : ParamSpec) : Option Value :=
  if ps.required then none else some ps.default

/-- The generated field for one stored parameter record: the recorded
type and the default slot from `fieldDefault`. -/
def mkFd (ps : ParamSpec) : FieldDef :=
  { type := ps.type, default := fieldDefault ps }

/-- The `field_definitions = {}` loop (fastapi_integration.py lines
22-27), producing the data of the per-tool generated request model. -/
def mkFieldDefs (tm : ToolMetadata) : List (String × FieldDef) :=
  tm.parameters.foldl (fun acc np => dictInsert np.1 (mkFd np.2) acc) []

/-- A FastAPI `HTTPException`: status code and detail message. -/
structure HTTPException where
  status_code : Nat
  detail : String
deriving DecidableEq, Repr

/-- The success envelope of a tool POST handler: the JSON object with the
single key `result` (fastapi_integration.py line 40). -/
structure PostResult where
  result : Value

/-- The handler produced by the `create_endpoint` factory for one tool
name (fastapi_integration.py lines 34-47): the validated request model is
its plain field mapping (`request.dict()`); the handler calls
`execute_tool(tool, **params)` and wraps the value in the result
envelope; any exception is translated into an HTTP 500 whose detail is
the exception message (`str(e)`). -/
def create_endpoint (mcp_instance : Registry) (tool : String)
    (request : List (String × Value)) : Except HTTPException PostResult :=
  match FastMCP.execute_tool mcp_instance tool request with
  | .ok result => .ok { result := result }
  | .error e => .error { status_code := 500, detail := e.msg }

/-- One POST route added by `router.add_api_route`
(fastapi_integration.py lines 50-61). -/
structure PostRoute where
  path : String
  schema : List (String × FieldDef)
  handler : List (String × Value) → Except HTTPException PostResult
  summary : String
  description : String

/-- The registration loop of `register_mcp_tools`
(fastapi_integration.py lines 20-61): one POST route per registry entry at
`prefix + "/" + tool_name`, whose handler is `create_endpoint(tool_name)`
— the factory is applied to the loop's tool name at creation time, so each
route's handler is closed over its own name. -/
def register_mcp_tools (mcp_instance : Registry) (pfx : String) : List PostRoute :=
  mcp_instance.map fun nt =>
    { path := pfx ++ "/" ++ nt.1
      schema := mkFieldDefs nt.2
      handler := create_endpoint mcp_instance nt.1
      summary :=
        if nt.2.description = "" then "" else (nt.2.description.splitOn ("\n")).headD ""
      description := nt.2.description }

/-- The GET listing endpoint (fastapi_integration.py lines 64-66). -/
def list_tools_endpoint (mcp_instance : Registry) : List String :=
  FastMCP.list_tools mcp_instance

/-- The GET tool-info endpoint (fastapi_integration.py lines 69-74):
404 with detail `"Tool not found: " + name` when `get_tool_info` returns
`None`, otherwise the projection. -/
def get_tool_info_endpoint (mcp_instance : Registry) (tool_name : String) :
    Except HTTPException FastMCP.ToolInfo :=
  match FastMCP.get_tool_info mcp_instance tool_name with
  | none =>
      Except.error { status_code := 404, detail := "Tool not found: " ++ tool_name }
  | some info => Except.ok info

/-- A sample tool behaviour for concrete evaluations: returns its keyword
argument `x` unchanged, raising a `TypeError` when it is missing. -/
def echoCall (args : CallArgs) : Except PyErr Value :=
  match dictGet "x" args.2 with
  | some v => Except.ok v
  | none => Except.error { kind := "TypeError", msg := "missing argument x" }

/-- A sample callable `echo(x: str, mark: str = "!") -> str` with a
docstring. -/
def echoFunc : PyFunc :=
  { pyName := "echo"
    docstring := some "Echo the input."
    params :=
      [{ name := "x", hint := some PType.str, default := PyDefault.empty },
       { name := "mark", hint := some PType.str, default := PyDefault.value (Value.str "!") }]
    returnHint := some PType.str
    call := echoCall }

/-- A sample callable `fail() -> str` without a docstring that always
raises. -/
def failFunc : PyFunc :=
  { pyName := "fail"
    docstring := none
    params := []
    returnHint := some PType.str
    call := fun _ => Except.error { kind := "RuntimeError", msg := "boom" } }

/-- A sample callable `greet()` whose docstring is nonempty, used to probe
the description-resolution rule. -/
def greetFunc : PyFunc :=
  { pyName := "greet"
    docstring := some "Greets the user."
    params := []
    returnHint := none
    call := fun _ => Except.ok Value.pyNone }

/-- A sample registry holding `echo` and then `fail`, registered through
the decorator. -/
def demoRegistry : Registry :=
  (FastMCP.tool (FastMCP.tool [] none none echoFunc).1 none none failFunc).1

theorem dictGet_dictInsert {α : Type} (k k0 : String) (v : α) (l : List (String × α)) :
    dictGet k (dictInsert k0 v l) = if k0 = k then some v else dictGet k l := by
  induction l with
  | nil => by_cases h : k0 = k <;> simp [dictInsert, dictGet, h]
  | cons hd tl ih =>
      obtain ⟨k1, v1⟩ := hd
      by_cases h1 : k1 = k0
      · subst h1
        by_cases h2 : k1 = k <;> simp [dictInsert, dictGet, h2]
      · by_cases h2 : k1 = k
        · subst h2
          have : k0 ≠ k1 := fun hc => h1 hc.symm
          simp [dictInsert, dictGet, h1, this, ih]
        · simp [dictInsert, dictGet, h1, h2, ih]

theorem dictGet_isSome_iff_mem {α : Type} (k : String) (l : List (String × α)) :
    (dictGet k l).isSome ↔ k ∈ l.map Prod.fst := by
  induction l with
  | nil => simp [dictGet]
  | cons hd tl ih =>
      obtain ⟨k1, v1⟩ := hd
      by_cases h : k1 = k
      · subst h; simp [dictGet]
      · have h2 : ¬(k = k1) := fun hc => h hc.symm
        simp [dictGet, h, h2, ih]

theorem dictGet_eq_none_of_not_mem {α : Type} {k : String} {l : List (String × α)}
    (h : k ∉ l.map Prod.fst) : dictGet k l = none := by
  cases hg : dictGet k l with
  | none => rfl
  | some v =>
      exact absurd ((dictGet_isSome_iff_mem k l).mp (by simp [hg])) h

theorem dictInsert_fresh {α : Type} {k : String} (v : α) {l : List (String × α)}
    (h : k ∉ l.map Prod.fst) : dictInsert k v l = l ++ [(k, v)] := by
  induction l with
  | nil => simp [dictInsert]
  | cons hd tl ih =>
      obtain ⟨k1, v1⟩ := hd
      simp only [List.map_cons, List.mem_cons] at h
      push_neg at h
      have h1 : k1 ≠ k := fun hc => h.1 hc.symm
      simp [dictInsert, h1, ih h.2]

theorem keys_dictInsert_mem {α : Type} {k : String} (v : α) {l : List (String × α)}
    (h : k ∈ l.map Prod.fst) :
    (dictInsert k v l).map Prod.fst = l.map Prod.fst := by
  induction l with
  | nil => simp at h
  | cons hd tl ih =>
      obtain ⟨k1, v1⟩ := hd
      by_cases h1 : k1 = k
      · simp [dictInsert, h1]
      · simp only [List.map_cons, List.mem_cons] at h
        rcases h with h | h
        · exact absurd h.symm h1
        · simp [dictInsert, h1, ih h]

theorem nodup_keys_dictInsert {α : Type} (k : String) (v : α)
    {l : List (String × α)} (h : (l.map Prod.fst).Nodup) :
    ((dictInsert k v l).map Prod.fst).Nodup := by
  by_cases hm : k ∈ l.map Prod.fst
  · rw [keys_dictInsert_mem v hm]; exact h
  · rw [dictInsert_fresh v hm]
    simp only [List.map_append, List.map_cons, List.map_nil]
    rw [List.nodup_append]
    refine ⟨h, List.nodup_singleton k, ?_⟩
    intro a ha hb
    rw [List.mem_singleton] at hb
    exact hm (hb ▸ ha)

theorem count_keys_dictInsert {α : Type} (k : String) (v : α)
    {l : List (String × α)} (h : (l.map Prod.fst).Nodup) :
    ((dictInsert k v l).map Prod.fst).count k = 1 := by
  by_cases hm : k ∈ l.map Prod.fst
  · rw [keys_dictInsert_mem v hm]
    exact List.count_eq_one_of_mem h hm
  · rw [dictInsert_fresh v hm]
    simp [List.count_append, List.count_eq_zero_of_not_mem hm]

theorem foldl_dictInsert_track {α β : Type} (κ : α → String) (g : α → β) (k : String) :
    ∀ (l : List α) (acc : List (String × β)) (v : β),
      dictGet k (l.foldl (fun a x => dictInsert (κ x) (g x) a) acc) = some v →
      (∃ x ∈ l, κ x = k ∧ v = g x) ∨ dictGet k acc = some v := by
  intro l
  induction l with
  | nil => intro acc v h; exact Or.inr h
  | cons hd tl ih =>
      intro acc v h
      simp only [List.foldl_cons] at h
      rcases ih _ _ h with h1 | h2
      · obtain ⟨x, hx, hk, hv⟩ := h1
        exact Or.inl ⟨x, List.mem_cons_of_mem _ hx, hk, hv⟩
      · rw [dictGet_dictInsert] at h2
        by_cases hk : κ hd = k
        · simp only [hk, if_pos rfl] at h2
          exact Or.inl ⟨hd, List.mem_cons_self hd tl, hk, (Option.some.injEq _ _ ▸ h2).symm⟩
        · rw [if_neg hk] at h2
          exact Or.inr h2

theorem foldl_dictInsert_eq_append {α β : Type} (κ : α → String) (g : α → β) :
    ∀ (l : List α) (acc : List (String × β)),
      (l.map κ).Nodup → (∀ x ∈ l, κ x ∉ acc.map Prod.fst) →
      l.foldl (fun a x => dictInsert (κ x) (g x) a) acc =
        acc ++ l.map (fun x => (κ x, g x)) := by
  intro l
  induction l with
  | nil => intro acc _ _; simp
  | cons hd tl ih =>
      intro acc hnd hfresh
      simp only [List.foldl_cons]
      rw [dictInsert_fresh (g hd) (hfresh hd (List.mem_cons_self hd tl))]
      simp only [List.map_cons, List.nodup_cons] at hnd
      rw [ih (acc ++ [(κ hd, g hd)]) hnd.2 ?_]
      · simp
      · intro x hx
        simp only [List.map_append, List.map_cons, List.map_nil, List.mem_append,
          List.mem_singleton]
        push_neg
        refine ⟨hfresh x (List.mem_cons_of_mem _ hx), fun hc => ?_⟩
        exact hnd.1 (hc ▸ List.mem_map_of_mem κ hx)

theorem nodup_keys_foldl_dictInsert {α β : Type} (κ : α → String) (g : α → β) :
    ∀ (l : List α) (acc : List (String × β)),
      (acc.map Prod.fst).Nodup →
      ((l.foldl (fun a x => dictInsert (κ x) (g x) a) acc).map Prod.fst).Nodup := by
  intro l
  induction l with
  | nil => intro acc h; exact h
  | cons hd tl ih =>
      intro acc h
      simp only [List.foldl_cons]
      exact ih _ (nodup_keys_dictInsert (κ hd) (g hd) h)

theorem dictGet_map_value {α β : Type} (g : α → β) (k : String) (l : List (String × α)) :
    dictGet k (l.map (fun np => (np.1, g np.2))) = (dictGet k l).map g := by
  induction l with
  | nil => simp [dictGet]
  | cons hd tl ih =>
      obtain ⟨k1, v1⟩ := hd
      by_cases h : k1 = k <;> simp [dictGet, h, ih]

theorem string_append_left_cancel {s a b : String} (h : s ++ a = s ++ b) : a = b := by
  have hd : (s ++ a).data = (s ++ b).data := congrArg String.data h
  simp only [String.data_append] at hd
  exact String.ext (List.append_cancel_left hd)

theorem dictGet_pathMap (tools : Registry) (n : String) :
    dictGet ("/tools/" ++ n)
        (tools.map fun nt => ("/tools/" ++ nt.1, FastMCP.mkPathItem nt.1 nt.2)) =
      (dictGet n tools).map (FastMCP.mkPathItem n) := by
  induction tools with
  | nil => simp [dictGet]
  | cons hd tl ih =>
      obtain ⟨n1, tm1⟩ := hd
      by_cases h : n1 = n
      · subst h; simp [dictGet]
      · have hne : ("/tools/" ++ n1 : String) ≠ "/tools/" ++ n := fun hc =>
          h (string_append_left_cancel hc)
        simp [dictGet, h, hne, ih]

theorem mkParamSpec_required (p : PyParam) :
    (mkParamSpec p).required = true ↔ p.default = PyDefault.empty := by
  cases hp : p.default <;> simp [mkParamSpec, hp]

theorem fieldDefault_none_iff (ps : ParamSpec) :
    fieldDefault ps = none ↔ ps.required = true := by
  cases h : ps.required <;> simp [fieldDefault, h]

theorem extractParams_some {f : List PyParam} {pn : String} {spec : ParamSpec}
    (h : dictGet pn (extractParams f) = some spec) :
    ∃ p ∈ f, p.name = pn ∧ spec = mkParamSpec p := by
  have h2 : dictGet pn
      (f.foldl (fun a x => dictInsert ((fun p : PyParam => p.name) x) (mkParamSpec x) a) []) =
        some spec := h
  rcases foldl_dictInsert_track (fun p : PyParam => p.name) mkParamSpec pn f [] spec h2
    with h1 | h3
  · exact h1
  · simp [dictGet] at h3

theorem nodup_keys_extractParams (f : List PyParam) :
    ((extractParams f).map Prod.fst).Nodup :=
  nodup_keys_foldl_dictInsert (fun p : PyParam => p.name) mkParamSpec f [] (by simp)

theorem mkFieldDefs_eq_map (tm : ToolMetadata)
    (hp : (tm.parameters.map Prod.fst).Nodup) :
    mkFieldDefs tm = tm.parameters.map fun np => (np.1, mkFd np.2) := by
  have h := foldl_dictInsert_eq_append (fun np : String × ParamSpec => np.1)
    (fun np : String × ParamSpec => mkFd np.2) tm.parameters [] hp (by simp)
  have h2 : mkFieldDefs tm =
      tm.parameters.foldl
        (fun a x => dictInsert ((fun np : String × ParamSpec => np.1) x)
          ((fun np : String × ParamSpec => mkFd np.2) x) a) [] := rfl
  rw [h2, h]
  simp

theorem dictGet_mkFieldDefs (tm : ToolMetadata)
    (hp : (tm.parameters.map Prod.fst).Nodup) (pn : String) :
    dictGet pn (mkFieldDefs tm) = (dictGet pn tm.parameters).map mkFd := by
  rw [mkFieldDefs_eq_map tm hp]
  exact dictGet_map_value mkFd pn tm.parameters

theorem buildRequestBody_requiredList (ps : List (String × ParamSpec)) :
    ∀ st : FastMCP.BodyState,
      (FastMCP.buildRequestBody ps st).requiredList =
        st.requiredList ++ (ps.filter fun np => np.2.required).map Prod.fst := by
  induction ps with
  | nil => intro st; simp [FastMCP.buildRequestBody]
  | cons hd tl ih =>
      intro st
      obtain ⟨pn, p⟩ := hd
      by_cases h : p.required <;>
        simp [FastMCP.buildRequestBody, h, ih, List.filter_cons, List.append_assoc]

theorem buildRequestBody_properties (ps : List (String × ParamSpec)) :
    ∀ st : FastMCP.BodyState,
      (ps.map Prod.fst).Nodup →
      (∀ np ∈ ps, np.1 ∉ st.properties.map Prod.fst) →
      (FastMCP.buildRequestBody ps st).properties =
        st.properties ++ ps.map fun np => (np.1, FastMCP.mkPropSchema np.2) := by
  induction ps with
  | nil => intro st _ _; simp [FastMCP.buildRequestBody]
  | cons hd tl ih =>
      intro st hnd hfresh
      obtain ⟨pn, p⟩ := hd
      simp only [List.map_cons, List.nodup_cons] at hnd
      have hfr : pn ∉ st.properties.map Prod.fst := hfresh (pn, p) (List.mem_cons_self _ _)
      have hstep :
          ∀ st1 : FastMCP.BodyState, st1.properties = st.properties →
            (FastMCP.buildRequestBody tl
              { st1 with
                properties := dictInsert pn (FastMCP.mkPropSchema p) st1.properties }).properties =
              st.properties ++ (pn, FastMCP.mkPropSchema p) ::
                (tl.map fun np => (np.1, FastMCP.mkPropSchema np.2)) := by
        intro st1 hprop
        rw [ih _ hnd.2 ?_]
        · rw [hprop, dictInsert_fresh (FastMCP.mkPropSchema p) hfr]
          simp
        · intro x hx
          rw [hprop, dictInsert_fresh (FastMCP.mkPropSchema p) hfr]
          simp only [List.map_append, List.map_cons, List.map_nil, List.mem_append,
            List.mem_singleton]
          push_neg
          refine ⟨hfresh x (List.mem_cons_of_mem _ hx), fun hc => ?_⟩
          exact hnd.1 (hc ▸ List.mem_map_of_mem Prod.fst hx)
      by_cases h : p.required
      · simpa [FastMCP.buildRequestBody, h] using
          hstep { st with requiredList := st.requiredList ++ [pn], bodyRequired := true } rfl
      · simpa [FastMCP.buildRequestBody, h] using hstep st rfl

theorem execute_tool_eq_function {tools : Registry} {n : String} {tm : ToolMetadata}
    (h : dictGet n tools = some tm) (kwargs : List (String × Value)) :
    FastMCP.execute_tool tools n kwargs = tm.function ([], kwargs) := by
  unfold FastMCP.execute_tool
  rw [h]

/-- C1: for every registration and every parameter recorded for the
registered callable, the registry records the parameter as required iff
the callable supplies no default for it (its signature default slot is
empty), and the generated request-model field for that parameter is
mandatory (its default slot is the Ellipsis marker, modelled `none`) iff
the recorded parameter is required, optional fields carrying the recorded
default as the generated field default. -/
theorem C1_required_iff_no_default (name? description? : Option String) (f : PyFunc)
    (pn : String) (spec : ParamSpec)
    (h : dictGet pn (mkToolMetadata name? description? f).parameters = some spec) :
    (∃ p ∈ f.params, p.name = pn ∧ (spec.required = true ↔ p.default = PyDefault.empty)) ∧
    dictGet pn (mkFieldDefs (mkToolMetadata name? description? f)) = some (mkFd spec) ∧
    ((mkFd spec).default = none ↔ spec.required = true) ∧
    (spec.required = false → (mkFd spec).default = some spec.default) := by
  have hparams : (mkToolMetadata name? description? f).parameters = extractParams f.params :=
    rfl
  rw [hparams] at h
  obtain ⟨p, hp, hname, hspec⟩ := extractParams_some h
  refine ⟨⟨p, hp, hname, hspec ▸ mkParamSpec_required p⟩, ?_, ?_, ?_⟩
  · have hnd : ((mkToolMetadata name? description? f).parameters.map Prod.fst).Nodup := by
      rw [hparams]; exact nodup_keys_extractParams f.params
    rw [dictGet_mkFieldDefs _ hnd pn, hparams, h]
    rfl
  · simpa [mkFd] using fieldDefault_none_iff spec
  · intro hreq
    simp [mkFd, fieldDefault, hreq]

/-- Witness for C1 at the concrete callable `echo`: its optional
parameter `mark` generates an optional field whose default is the
recorded default string. -/
theorem C1_witness :
    dictGet "mark" (mkFieldDefs (mkToolMetadata none none echoFunc)) =
      some { type := PType.str, default := some (Value.str "!") } := by
  have h := C1_required_iff_no_default none none echoFunc "mark"
    { type := PType.str, required := false, default := Value.str "!", description := "" } rfl
  exact h.2.1

/-- C2: registering a second tool under an already-registered name
replaces the prior descriptor entirely: lookup yields the second
metadata, `execute_tool` invokes the second callable, and `list_tools`
contains the name exactly once. -/
theorem C2_overwrite (tools : Registry) (h : (FastMCP.list_tools tools).Nodup)
    (n1? d1? n2? d2? : Option String) (f g : PyFunc)
    (_hname : (mkToolMetadata n1? d1? f).name = (mkToolMetadata n2? d2? g).name)
    (kwargs : List (String × Value)) :
    dictGet (mkToolMetadata n2? d2? g).name
        (FastMCP.tool (FastMCP.tool tools n1? d1? f).1 n2? d2? g).1 =
      some (mkToolMetadata n2? d2? g) ∧
    FastMCP.execute_tool (FastMCP.tool (FastMCP.tool tools n1? d1? f).1 n2? d2? g).1
        (mkToolMetadata n2? d2? g).name kwargs = g.call ([], kwargs) ∧
    (FastMCP.list_tools
        (FastMCP.tool (FastMCP.tool tools n1? d1? f).1 n2? d2? g).1).count
      (mkToolMetadata n2? d2? g).name = 1 := by
  have hreg : (FastMCP.tool (FastMCP.tool tools n1? d1? f).1 n2? d2? g).1 =
      dictInsert (mkToolMetadata n2? d2? g).name (mkToolMetadata n2? d2? g)
        (dictInsert (mkToolMetadata n1? d1? f).name (mkToolMetadata n1? d1? f) tools) := rfl
  have hget : dictGet (mkToolMetadata n2? d2? g).name
      (FastMCP.tool (FastMCP.tool tools n1? d1? f).1 n2? d2? g).1 =
        some (mkToolMetadata n2? d2? g) := by
    rw [hreg, dictGet_dictInsert, if_pos rfl]
  refine ⟨hget, ?_, ?_⟩
  · exact execute_tool_eq_function hget kwargs
  · rw [hreg]
    exact count_keys_dictInsert _ _
      (nodup_keys_dictInsert (mkToolMetadata n1? d1? f).name (mkToolMetadata n1? d1? f) h)

/-- Witness for C2: registering `echo` and then `fail` both under the
explicit name `dup` leaves a registry whose execute runs `fail` and whose
listing holds `dup` once. -/
theorem C2_witness :
    FastMCP.execute_tool
        (FastMCP.tool (FastMCP.tool [] (some "dup") none echoFunc).1
          (some "dup") none failFunc).1 "dup" [] =
      Except.error { kind := "RuntimeError", msg := "boom" } ∧
    (FastMCP.list_tools
        (FastMCP.tool (FastMCP.tool [] (some "dup") none echoFunc).1
          (some "dup") none failFunc).1).count "dup" = 1 := by
  have h := C2_overwrite [] (by simp [FastMCP.list_tools])
    (some "dup") none (some "dup") none echoFunc failFunc rfl []
  exact ⟨h.2.1, h.2.2⟩

/-- C3: for every name not present in the registry, `execute_tool` fails
with the ValueError carrying the tool-not-found message, while
`get_tool_info` returns the explicit absent value (it is total and never
raises). -/
theorem C3_lookup_miss (tools : Registry) (n : String) (kwargs : List (String × Value))
    (h : n ∉ FastMCP.list_tools tools) :
    FastMCP.execute_tool tools n kwargs =
      Except.error { kind := "ValueError", msg := "Tool not found: " ++ n } ∧
    FastMCP.get_tool_info tools n = none := by
  have hg : dictGet n tools = none := dictGet_eq_none_of_not_mem h
  exact ⟨by simp [FastMCP.execute_tool, hg], by simp [FastMCP.get_tool_info, hg]⟩

/-- Witness for C3 at the sample registry and the absent name `nope`. -/
theorem C3_witness :
    FastMCP.execute_tool demoRegistry "nope" [] =
      Except.error { kind := "ValueError", msg := "Tool not found: nope" } ∧
    FastMCP.get_tool_info demoRegistry "nope" = none :=
  C3_lookup_miss demoRegistry "nope" [] (by decide)

/-- C4: for every registered tool name, `execute_tool` invokes the
underlying callable with exactly the given keyword arguments and returns
its result unmodified; a raised exception propagates unchanged. -/
theorem C4_execute_passthrough (tools : Registry) (n : String) (tm : ToolMetadata)
    (kwargs : List (String × Value)) (h : dictGet n tools = some tm) :
    FastMCP.execute_tool tools n kwargs = tm.function ([], kwargs) ∧
    (∀ v, tm.function ([], kwargs) = Except.ok v →
      FastMCP.execute_tool tools n kwargs = Except.ok v) ∧
    (∀ e, tm.function ([], kwargs) = Except.error e →
      FastMCP.execute_tool tools n kwargs = Except.error e) := by
  have h1 : FastMCP.execute_tool tools n kwargs = tm.function ([], kwargs) := by
    simp [FastMCP.execute_tool, h]
  exact ⟨h1, fun v hv => h1.trans hv, fun e he => h1.trans he⟩

/-- Witness for C4: executing the registered `fail` tool surfaces the
exact exception its callable raises. -/
theorem C4_witness :
    FastMCP.execute_tool demoRegistry "fail" [] =
      Except.error { kind := "RuntimeError", msg := "boom" } := by
  have h := C4_execute_passthrough demoRegistry "fail"
    (mkToolMetadata none none failFunc) [] rfl
  exact h.1

/-- C5: binding N registry entries yields N routes; the route at index i
is addressed under the i-th entry's own name and its handler is the
endpoint factory applied to that name at creation time, so on a valid
payload it calls execute with its own tool name and the payload's fields
and returns the result envelope (or the 500 translation). -/
theorem C5_per_tool_binding (tools : Registry) (pfx : String) (i : Nat)
    (n : String) (tm : ToolMetadata) (request : List (String × Value))
    (h : tools[i]? = some (n, tm)) :
    (register_mcp_tools tools pfx).length = tools.length ∧
    ((register_mcp_tools tools pfx)[i]?.map PostRoute.path) = some (pfx ++ "/" ++ n) ∧
    ((register_mcp_tools tools pfx)[i]?.map fun r => r.handler request) =
      some (create_endpoint tools n request) ∧
    (∀ v, FastMCP.execute_tool tools n request = Except.ok v →
      ((register_mcp_tools tools pfx)[i]?.map fun r => r.handler request) =
        some (Except.ok { result := v })) ∧
    (∀ e, FastMCP.execute_tool tools n request = Except.error e →
      ((register_mcp_tools tools pfx)[i]?.map fun r => r.handler request) =
        some (Except.error { status_code := 500, detail := e.msg })) := by
  have hr : (register_mcp_tools tools pfx)[i]? =
      some
        { path := pfx ++ "/" ++ n
          schema := mkFieldDefs tm
          handler := create_endpoint tools n
          summary :=
            if tm.description = "" then "" else (tm.description.splitOn ("\n")).headD ""
          description := tm.description } := by
    unfold register_mcp_tools
    rw [List.getElem?_map, h]
    rfl
  refine ⟨by simp [register_mcp_tools], ?_, ?_, ?_, ?_⟩
  · rw [hr]; rfl
  · rw [hr]; rfl
  · intro v hv
    rw [hr]
    simp [create_endpoint, hv]
  · intro e he
    rw [hr]
    simp [create_endpoint, he]

/-- Witness for C5: the first route of the sample registry is the `echo`
route and its handler answers a valid payload with the echoed value in
the result envelope. -/
theorem C5_witness :
    ((register_mcp_tools demoRegistry "/tools")[0]?.map fun r =>
        r.handler [("x", Value.str "hi"), ("mark", Value.str "!")]) =
      some (Except.ok { result := Value.str "hi" }) := by
  have h := C5_per_tool_binding demoRegistry "/tools" 0 "echo"
    (mkToolMetadata none none echoFunc) [("x", Value.str "hi"), ("mark", Value.str "!")] rfl
  exact h.2.2.2.1 (Value.str "hi") rfl

/-- C6: a failing execute inside the POST handler is translated into an
HTTP 500 carrying the failure message as detail, and a GET on an unknown
tool name yields an HTTP 404 whose detail is exactly the tool-not-found
text. -/
theorem C6_transport_errors (tools : Registry) (n m : String)
    (request : List (String × Value)) (e : PyErr)
    (h1 : FastMCP.execute_tool tools n request = Except.error e)
    (h2 : m ∉ FastMCP.list_tools tools) :
    create_endpoint tools n request =
      Except.error { status_code := 500, detail := e.msg } ∧
    get_tool_info_endpoint tools m =
      Except.error { status_code := 404, detail := "Tool not found: " ++ m } := by
  constructor
  · simp [create_endpoint, h1]
  · have hg : dictGet m tools = none := dictGet_eq_none_of_not_mem h2
    simp [get_tool_info_endpoint, FastMCP.get_tool_info, hg]

/-- Witness for C6: the sample `fail` tool POSTs to a 500 with its raised
message, and a GET for `unknown_tool` is a 404 with the exact detail. -/
theorem C6_witness :
    create_endpoint demoRegistry "fail" [] =
      Except.error { status_code := 500, detail := "boom" } ∧
    get_tool_info_endpoint demoRegistry "unknown_tool" =
      Except.error { status_code := 404, detail := "Tool not found: unknown_tool" } :=
  C6_transport_errors demoRegistry "fail" "unknown_tool" []
    { kind := "RuntimeError", msg := "boom" } rfl (by decide)

/-- C7: the schema document holds exactly one POST path per registered
tool (its key list is the registry's names under the path template); for
each tool the request-body properties are exactly the tool's parameters
with their types mapped through the schema type map (which sends int,
float, bool, list, dict to their JSON names and everything else to
string), and the required list is exactly the required parameters. -/
theorem C7_schema_document (tools : Registry) (n : String) (tm : ToolMetadata)
    (hreg : (FastMCP.list_tools tools).Nodup)
    (hp : (tm.parameters.map Prod.fst).Nodup)
    (h : dictGet n tools = some tm) :
    (FastMCP.generate_openapi_schema tools).map Prod.fst =
      tools.map (fun nt => "/tools/" ++ nt.1) ∧
    dictGet ("/tools/" ++ n) (FastMCP.generate_openapi_schema tools) =
      some (FastMCP.mkPathItem n tm) ∧
    (FastMCP.mkPathItem n tm).requestBody.properties =
      tm.parameters.map (fun np => (np.1, FastMCP.mkPropSchema np.2)) ∧
    (FastMCP.mkPathItem n tm).requestBody.requiredList =
      (tm.parameters.filter fun np => np.2.required).map Prod.fst ∧
    (FastMCP.typeToSchemaStr PType.int = "integer" ∧
      FastMCP.typeToSchemaStr PType.float = "number" ∧
      FastMCP.typeToSchemaStr PType.bool = "boolean" ∧
      FastMCP.typeToSchemaStr PType.list = "array" ∧
      FastMCP.typeToSchemaStr PType.dict = "object" ∧
      FastMCP.typeToSchemaStr PType.str = "string" ∧
      FastMCP.typeToSchemaStr PType.any = "string") := by
  have hκnd : (tools.map fun nt : String × ToolMetadata => "/tools/" ++ nt.1).Nodup := by
    have hc : (tools.map fun nt : String × ToolMetadata => "/tools/" ++ nt.1) =
        (tools.map Prod.fst).map (fun s => "/tools/" ++ s) := by
      rw [List.map_map]; rfl
    rw [hc]
    exact List.Nodup.map (fun a b hab => string_append_left_cancel hab) hreg
  have hmap := foldl_dictInsert_eq_append
    (fun nt : String × ToolMetadata => "/tools/" ++ nt.1)
    (fun nt : String × ToolMetadata => FastMCP.mkPathItem nt.1 nt.2) tools [] hκnd (by simp)
  have hschema : FastMCP.generate_openapi_schema tools =
      tools.map fun nt => ("/tools/" ++ nt.1, FastMCP.mkPathItem nt.1 nt.2) := by
    have h0 : FastMCP.generate_openapi_schema tools =
        tools.foldl
          (fun a x => dictInsert ((fun nt : String × ToolMetadata => "/tools/" ++ nt.1) x)
            ((fun nt : String × ToolMetadata => FastMCP.mkPathItem nt.1 nt.2) x) a) [] := rfl
    rw [h0, hmap]
    simp
  have hprops := buildRequestBody_properties tm.parameters
    { properties := [], requiredList := [], bodyRequired := false } hp (by simp)
  have hreq := buildRequestBody_requiredList tm.parameters
    { properties := [], requiredList := [], bodyRequired := false }
  refine ⟨?_, ?_, ?_, ?_, rfl, rfl, rfl, rfl, rfl, rfl, rfl⟩
  · rw [hschema, List.map_map]
    rfl
  · rw [hschema, dictGet_pathMap, h]
    rfl
  · simpa [FastMCP.mkPathItem] using hprops
  · simpa [FastMCP.mkPathItem] using hreq

/-- Witness for C7: the sample registry's schema document holds the
`echo` path item. -/
theorem C7_witness :
    dictGet "/tools/echo" (FastMCP.generate_openapi_schema demoRegistry) =
      some (FastMCP.mkPathItem "echo" (mkToolMetadata none none echoFunc)) := by
  have h := C7_schema_document demoRegistry "echo" (mkToolMetadata none none echoFunc)
    (by decide) (by decide) rfl
  exact h.2.1

/-- C8 counterexample: the claim that the stored description equals the
explicitly supplied text whenever one is supplied fails on the code: the
resolution uses string truthiness, so an explicitly supplied empty
description is overridden by the docstring. -/
theorem C8_counterexample :
    (mkToolMetadata none (some "") greetFunc).description = "Greets the user." ∧
    ¬(mkToolMetadata none (some "") greetFunc).description = "" := by
  exact ⟨rfl, by decide⟩

/-- C8 (amended): the stored description equals the supplied text when a
nonempty one is supplied; when the supplied description is absent or
empty it equals the callable docstring when that is nonempty; and when
neither a nonempty description nor a nonempty docstring exists it is the
empty string. -/
theorem C8_description_resolution (name? description? : Option String) (f : PyFunc) :
    (∀ d, description? = some d → d ≠ "" →
      (mkToolMetadata name? description? f).description = d) ∧
    ((description? = none ∨ description? = some "") →
      ∀ s, f.docstring = some s → s ≠ "" →
        (mkToolMetadata name? description? f).description = s) ∧
    ((description? = none ∨ description? = some "") →
      (f.docstring = none ∨ f.docstring = some "") →
      (mkToolMetadata name? description? f).description = "") := by
  refine ⟨?_, ?_, ?_⟩
  · intro d hd hne
    subst hd
    simp [mkToolMetadata, pyOrStr, hne]
  · rintro (hd | hd) s hs hne <;> subst hd <;>
      simp [mkToolMetadata, pyOrStr, hs, hne]
  · rintro (hd | hd) (hs | hs) <;> subst hd <;>
      simp [mkToolMetadata, pyOrStr, hs]

/-- Witness for C8 (amended): a nonempty supplied description is stored
verbatim even when a docstring exists. -/
theorem C8_witness :
    (mkToolMetadata none (some "custom") greetFunc).description = "custom" :=
  (C8_description_resolution none (some "custom") greetFunc).1 "custom" rfl (by decide)

/-- C9: the wrapper returned by the decorator is extensionally equivalent
to the decorated callable: on every argument list it returns the same
`Except` outcome, so successes and raised exceptions pass through
unchanged. -/
theorem C9_wrapper_transparent (tools : Registry) (name? description? : Option String)
    (f : PyFunc) (args : CallArgs) :
    (FastMCP.tool tools name? description? f).2 args = f.call args := by
  show FastMCP.wrapper f.call args = f.call args
  unfold FastMCP.wrapper
  cases f.call args <;> rfl

/-- C10: on every registry state (hence on every state reachable by a
sequence of registrations) the three lookups agree on a name: membership
in `list_tools` iff `get_tool_info` is non-absent iff `execute_tool`
reaches the underlying callable; and on absent names execute fails with
the not-found ValueError. -/
theorem C10_lookup_agreement (tools : Registry) (n : String) :
    (n ∈ FastMCP.list_tools tools ↔ (FastMCP.get_tool_info tools n).isSome) ∧
    ((FastMCP.get_tool_info tools n).isSome ↔
      ∃ tm, dictGet n tools = some tm ∧
        ∀ kwargs, FastMCP.execute_tool tools n kwargs = tm.function ([], kwargs)) ∧
    (n ∉ FastMCP.list_tools tools →
      ∀ kwargs, FastMCP.execute_tool tools n kwargs =
        Except.error { kind := "ValueError", msg := "Tool not found: " ++ n }) := by
  have hmem : n ∈ FastMCP.list_tools tools ↔ (dictGet n tools).isSome :=
    (dictGet_isSome_iff_mem n tools).symm
  have hinfo : (FastMCP.get_tool_info tools n).isSome ↔ (dictGet n tools).isSome := by
    unfold FastMCP.get_tool_info
    cases dictGet n tools <;> simp
  refine ⟨hmem.trans hinfo.symm, ?_, ?_⟩
  · rw [hinfo]
    constructor
    · intro hs
      obtain ⟨tm, htm⟩ := Option.isSome_iff_exists.mp hs
      exact ⟨tm, htm, fun kwargs => execute_tool_eq_function htm kwargs⟩
    · rintro ⟨tm, htm, _⟩
      simp [htm]
  · intro hn kwargs
    have hg : dictGet n tools = none := dictGet_eq_none_of_not_mem hn
    simp [FastMCP.execute_tool, hg]

/-- Witness for C10 at the sample registry and an absent name. -/
theorem C10_witness :
    FastMCP.execute_tool demoRegistry "ghost" [] =
      Except.error { kind := "ValueError", msg := "Tool not found: ghost" } :=
  (C10_lookup_agreement demoRegistry "ghost").2.2 (by decide) []

end MCP
